import Mathlib

/-!
Verification of the decision-and-simulation engine of a digit-market trading
program: digit statistics, adaptive martingale stake sizing, confidence
threshold adaptation, the walk-forward backtest simulator, and the connection
retry loop. Every definition is a shallow embedding of the corresponding
Python source (trading_bot.py, backtester.py, digit_analysis.py,
ml_models.py); machine floats are modelled as rationals.
-/

namespace YellowMaxPool

set_option maxRecDepth 100000

/-! ## Counter helpers (Python collections.Counter) -/

/-- Distinct elements of a list in first-occurrence order, modelling the
insertion order of the keys of a Python `Counter`/dict built from the list. -/
def firstOccurrencesAux (seen : List Nat) : List Nat → List Nat
  | [] => []
  | d :: rest =>
    if d ∈ seen then firstOccurrencesAux seen rest
    else d :: firstOccurrencesAux (d :: seen) rest

/-- Distinct elements in first-occurrence order. -/
def firstOccurrences (l : List Nat) : List Nat := firstOccurrencesAux [] l

/-- Number of distinct elements (Python `len(Counter(l))` or `len(set(l))`). -/
def countDistinct (l : List Nat) : Nat := (firstOccurrences l).length

/-- Python `Counter(l).most_common(1)[0][0]`: element with the highest count;
`most_common` sorts by count descending, stably, so ties go to the earliest
inserted key. `none` exactly when the list is empty. -/
def mostCommon (l : List Nat) : Option Nat :=
  (firstOccurrences l).foldl
    (fun acc d =>
      match acc with
      | none => some d
      | some b => if l.count b < l.count d then some d else some b)
    none

/-- Python `Counter(l).most_common()[-1][0]`: the last entry of the stable
descending sort by count, i.e. among the keys of minimal count, the one
inserted latest. `none` exactly when the list is empty. -/
def leastCommon (l : List Nat) : Option Nat :=
  (firstOccurrences l).foldl
    (fun acc d =>
      match acc with
      | none => some d
      | some b => if l.count d ≤ l.count b then some d else some b)
    none

/-! ## ml_models.py: build_simple_prediction_model -/

/-- The prediction function returned by `build_simple_prediction_model`:
empty history gives the fixed digit 5, otherwise the mode of the history.
`rnd` models the value `random.randint(0, 9)` of the fallback branch, which
the source reaches only when the Counter of a non-empty history is empty
(i.e. never). -/
def predictNextDigit (rnd : Nat) (history : List Nat) : Nat :=
  if history = [] then 5
  else
    match mostCommon history with
    | some d => d
    | none => rnd

/-! ## trading_bot.py: get_stake_amount (lines 597-639) -/

/-- The win-rate selected martingale multiplier of `get_stake_amount`
(`1.5**level` conservative, `2**level` aggressive, `1.8**level` default). -/
def stakeMultiplier (winRate : ℚ) (level : Int) : ℚ :=
  if winRate < 2/5 ∧ 2 < level then (3/2 : ℚ) ^ level
  else if 3/5 < winRate then (2 : ℚ) ^ level
  else (9/5 : ℚ) ^ level

/-- `AdvancedTradingBot.get_stake_amount`: adaptive martingale stake with risk
management. `balanceAvailable` models `'balance' in self.account_info`;
the hard-coded `max_risk_percentage` of the source is 0.05. -/
def getStakeAmount (baseStake : ℚ) (level : Int) (wins losses : Nat)
    (balanceAvailable : Bool) (accountBalance : ℚ) : ℚ :=
  if level = 0 then baseStake
  else
    let standardMultiplier : ℚ := (2 : ℚ) ^ level
    if balanceAvailable then
      let totalTrades := wins + losses
      let winRate : ℚ := if 0 < totalTrades then (wins : ℚ) / (totalTrades : ℚ) else 1/2
      let multiplier := stakeMultiplier winRate level
      let maxStake := accountBalance * (1/20)
      max (min (baseStake * multiplier) maxStake) baseStake
    else baseStake * standardMultiplier

/-- The stake formula exactly as the specification words it (claim side, for
comparison with `getStakeAmount`): base stake at level 0, otherwise
`max(baseStake, min(baseStake * m, balance * maxRiskFraction))` with the
win-rate selected multiplier `m`. -/
def specNextStake (winRate : ℚ) (level : Int) (baseStake balance maxRiskFraction : ℚ) : ℚ :=
  if level = 0 then baseStake
  else max baseStake (min (baseStake * stakeMultiplier winRate level) (balance * maxRiskFraction))

/-! ## trading_bot.py: settlement update of execute_trade (lines 546-566) -/

/-- The martingale-relevant configuration of `trade_config`. -/
structure LiveTradeConfig where
  martingaleStart : Int
  maxMartingale : Int
deriving DecidableEq

/-- The martingale-relevant mutable fields of `trade_config`. -/
structure MartingaleState where
  currentMartingaleLevel : Int
  consecutiveLosses : Int
  wins : Nat
  losses : Nat
deriving DecidableEq

/-- Initial `trade_config` counters: level 0, no losses, no outcomes. -/
def initMartingaleState : MartingaleState :=
  { currentMartingaleLevel := 0, consecutiveLosses := 0, wins := 0, losses := 0 }

/-- The settlement bookkeeping of `execute_trade` once a contract is sold:
on a win reset `consecutive_losses` and `current_martingale_level`; on a loss
increment `consecutive_losses` and, once it reaches `martingale_start`,
increment the level capped at `max_martingale`. -/
def settleOutcome (cfg : LiveTradeConfig) (s : MartingaleState) (isWin : Bool) : MartingaleState :=
  if isWin then
    { s with wins := s.wins + 1, consecutiveLosses := 0, currentMartingaleLevel := 0 }
  else
    let cl := s.consecutiveLosses + 1
    if cfg.martingaleStart ≤ cl then
      { s with losses := s.losses + 1, consecutiveLosses := cl,
               currentMartingaleLevel := min (s.currentMartingaleLevel + 1) cfg.maxMartingale }
    else
      { s with losses := s.losses + 1, consecutiveLosses := cl }

/-! ## trading_bot.py: adaptive confidence threshold of execute_trade (lines 449-487) -/

/-- The adaptive minimum-confidence threshold: base 0.6, win-rate adjustment
(-0.05 above 0.6, +0.05 below 0.4), volatility adjustment from the distinct
digits among the last 20 (-0.03 when at most 3, +0.03 when at least 8, only
with at least 20 digits of history), clamped to [0.5, 0.75]. -/
def adaptiveMinConfidence (wins losses : Nat) (lastDigits : List Nat) : ℚ :=
  let baseConfidenceThreshold : ℚ := 3/5
  let confidenceAdjustment : ℚ :=
    if 0 < wins + losses then
      let winRate : ℚ := (wins : ℚ) / ((wins + losses : Nat) : ℚ)
      if 3/5 < winRate then -1/20
      else if winRate < 2/5 then 1/20
      else 0
    else 0
  let volatilityAdjustment : ℚ :=
    if 20 ≤ lastDigits.length then
      let uniqueDigits := countDistinct (lastDigits.drop (lastDigits.length - 20))
      if uniqueDigits ≤ 3 then -3/100
      else if 8 ≤ uniqueDigits then 3/100
      else 0
    else 0
  max (1/2) (min (3/4) (baseConfidenceThreshold + confidenceAdjustment + volatilityAdjustment))

/-- The threshold exactly as the specification words it (claim side):
0.6 plus a win-rate adjustment plus a volatility adjustment, clamped. -/
def specMinConfidence (winRate : ℚ) (lastDigits : List Nat) : ℚ :=
  let winAdj : ℚ := if 3/5 < winRate then -1/20 else if winRate < 2/5 then 1/20 else 0
  let volAdj : ℚ :=
    if lastDigits.length < 20 then 0
    else if countDistinct (lastDigits.drop (lastDigits.length - 20)) ≤ 3 then -3/100
    else if 8 ≤ countDistinct (lastDigits.drop (lastDigits.length - 20)) then 3/100
    else 0
  max (1/2) (min (3/4) (3/5 + winAdj + volAdj))

/-! ## trading_bot.py: connect (lines 53-104) -/

/-- What one iteration of the connect retry loop observes: a successful
authorized connection, an authorization error whose message does or does not
contain the substring `token`, or an exception while connecting/sending. -/
inductive AttemptOutcome
  | ok
  | authErr (tokenInMessage : Bool)
  | connFail
deriving DecidableEq

/-- Result of the connect loop: success flag, number of loop iterations
entered, and the list of backoff sleeps performed (in seconds). -/
structure ConnectResult where
  success : Bool
  attemptsMade : Nat
  sleeps : List Nat
deriving DecidableEq

/-- One unrolling of the `for attempt in range(max_retries)` loop of
`connect`. `outcome attempt` is what attempt number `attempt` observes.
A token-mentioning authorization error returns `False` at once; other
authorization errors `continue` (no sleep); exceptions sleep
`base_delay * 2 ** attempt` unless this was the last attempt. -/
def connectAux (outcome : Nat → AttemptOutcome) (maxRetries baseDelay : Nat) :
    Nat → Nat → ConnectResult
  | _, 0 => { success := false, attemptsMade := 0, sleeps := [] }
  | attempt, fuel + 1 =>
    match outcome attempt with
    | .ok => { success := true, attemptsMade := 1, sleeps := [] }
    | .authErr true => { success := false, attemptsMade := 1, sleeps := [] }
    | .authErr false =>
      let r := connectAux outcome maxRetries baseDelay (attempt + 1) fuel
      { r with attemptsMade := r.attemptsMade + 1 }
    | .connFail =>
      let r := connectAux outcome maxRetries baseDelay (attempt + 1) fuel
      if attempt < maxRetries - 1 then
        { r with attemptsMade := r.attemptsMade + 1,
                 sleeps := baseDelay * 2 ^ attempt :: r.sleeps }
      else
        { r with attemptsMade := r.attemptsMade + 1 }

/-- `AdvancedTradingBot.connect` retry loop with `max_retries = 3` and
`base_delay = 1` (the already-connected fast path is not taken). -/
def connect (outcome : Nat → AttemptOutcome) : ConnectResult :=
  connectAux outcome 3 1 0 3

/-! ## digit_analysis.py: arithmetic-progression scan of analyze_digits (lines 79-99) -/

/-- One detected arithmetic pattern entry. -/
structure ArithPattern where
  pattern : List Nat
  length : Nat
  start : Nat
  difference : Int
  confidence : ℚ
deriving DecidableEq

/-- Python `len(set(l)) == 1`: the list is non-empty and all elements equal. -/
def allSame (l : List Int) : Bool :=
  match l with
  | [] => false
  | h :: t => t.all (fun x => x = h)

/-- The arithmetic-progression scan of `analyze_digits`: for each window
length in `range(3, min(8, len(digits)))` and each start in
`range(len(digits) - window)`, take the first differences of the slice;
if they are all equal and non-zero, fold each difference through the
wraparound adjustment and record the pattern when the adjusted differences
are all equal. -/
def arithmeticPatterns (digits : List Nat) : List ArithPattern :=
  (List.range' 3 (min 8 digits.length - 3)).flatMap fun window =>
    (List.range (digits.length - window)).filterMap fun start =>
      let seq := (digits.drop start).take window
      let diffs := (List.range (seq.length - 1)).map
        (fun i => (seq.getD (i + 1) 0 : Int) - (seq.getD i 0 : Int))
      if allSame diffs ∧ diffs.getD 0 0 ≠ 0 then
        let adjustedDiffs := diffs.map
          (fun d => if d < -5 then (d + 10) % 10 else if 5 < d then d % 10 else d)
        if allSame adjustedDiffs then
          some { pattern := seq, length := window, start := start,
                 difference := adjustedDiffs.getD 0 0,
                 confidence := min (4/5 : ℚ) (2/5 + (window : ℚ) / 10) }
        else none
      else none

/-! ## backtester.py: BackTester.run_backtest (lines 99-385) -/

/-- The four contract families the backtester dispatches on. -/
inductive ContractType
  | matches
  | differs
  | overUnder
  | evenOdd
deriving DecidableEq

/-- The contract-specific `trade_details` recorded with each trade. -/
inductive TradeDetails
  | digitMatch (targetDigit : Nat)
  | digitDiff (avoidDigit : Nat)
  | digitOver (barrier : Nat)
  | digitUnder (barrier : Nat)
  | digitEven
  | digitOdd
deriving DecidableEq

/-- The backtest configuration (`config.get` defaults are applied by the
caller when building this record). -/
structure BTConfig where
  contractType : ContractType
  stakeAmount : ℚ
  martingaleEnabled : Bool
  martingaleStart : Int
  maxMartingale : Int
  minConfidence : ℚ
  windowSize : Nat
deriving DecidableEq

/-- One entry of `self.results['trades']`. `window` holds `window[-10:]`. -/
structure TradeRecord where
  index : Nat
  window : List Nat
  prediction : Nat
  actual : Nat
  isWin : Bool
  stake : ℚ
  profit : ℚ
  balance : ℚ
  confidence : ℚ
  martingaleLevel : Int
  details : TradeDetails
deriving DecidableEq

/-- The simulation state variables of `run_backtest` (lines 151-166) plus the
accumulating `results` lists. -/
structure BTState where
  currentStake : ℚ
  balance : ℚ
  consecutiveLosses : Int
  consecutiveWins : Int
  maxConsecutiveWins : Int
  maxConsecutiveLosses : Int
  currentDrawdown : ℚ
  maxDrawdown : ℚ
  maxDrawdownPercentage : ℚ
  peakBalance : ℚ
  winningTrades : List ℚ
  losingTrades : List ℚ
  currentMartingaleLevel : Int
  trades : List TradeRecord
  equityCurve : List (Nat × ℚ)
deriving DecidableEq

/-- Initial simulation state: everything zero, equity curve seeded with
`(0, 0)`. -/
def initState (cfg : BTConfig) : BTState :=
  { currentStake := cfg.stakeAmount, balance := 0, consecutiveLosses := 0,
    consecutiveWins := 0, maxConsecutiveWins := 0, maxConsecutiveLosses := 0,
    currentDrawdown := 0, maxDrawdown := 0, maxDrawdownPercentage := 0,
    peakBalance := 0, winningTrades := [], losingTrades := [],
    currentMartingaleLevel := 0, trades := [], equityCurve := [(0, 0)] }

/-- The per-contract decision of one backtest step: the probability used as
confidence, whether the realized next digit wins, the payout multiplier, and
the recorded contract details. Divisions are by `window.length`
(the source would raise on an empty window; rational division by zero
yields 0 here). -/
structure StepDecision where
  confidence : ℚ
  isWin : Bool
  payout : ℚ
  details : TradeDetails
deriving DecidableEq

/-- Lines 184-265 of `run_backtest`: probabilities for the configured
contract type, the win condition against the realized digit, and the payout
constants (matches 9, differs 0.9, over/under 1.0, even/odd 1.0). -/
def stepDecision (ct : ContractType) (window : List Nat) (nextDigit : Nat) : StepDecision :=
  let totalTicks : ℚ := (window.length : ℚ)
  match ct with
  | .matches =>
    let mostCommonDigit := (mostCommon window).getD 5
    { confidence := (window.count mostCommonDigit : ℚ) / totalTicks,
      isWin := nextDigit = mostCommonDigit,
      payout := 9,
      details := .digitMatch mostCommonDigit }
  | .differs =>
    let leastCommonDigit := (leastCommon window).getD 0
    { confidence := ((window.length - window.count leastCommonDigit : Nat) : ℚ) / totalTicks,
      isWin := nextDigit ≠ leastCommonDigit,
      payout := 9/10,
      details := .digitDiff leastCommonDigit }
  | .overUnder =>
    let overCount := ((List.range' 5 5).map (fun d => window.count d)).sum
    let underCount := ((List.range' 0 5).map (fun d => window.count d)).sum
    if (underCount : ℚ) / totalTicks < (overCount : ℚ) / totalTicks then
      { confidence := (overCount : ℚ) / totalTicks, isWin := 5 ≤ nextDigit,
        payout := 1, details := .digitOver 4 }
    else
      { confidence := (underCount : ℚ) / totalTicks, isWin := nextDigit < 5,
        payout := 1, details := .digitUnder 5 }
  | .evenOdd =>
    let evenCount := (([0, 2, 4, 6, 8] : List Nat).map (fun d => window.count d)).sum
    let oddCount := (([1, 3, 5, 7, 9] : List Nat).map (fun d => window.count d)).sum
    if (oddCount : ℚ) / totalTicks < (evenCount : ℚ) / totalTicks then
      { confidence := (evenCount : ℚ) / totalTicks, isWin := nextDigit % 2 = 0,
        payout := 1, details := .digitEven }
    else
      { confidence := (oddCount : ℚ) / totalTicks, isWin := nextDigit % 2 = 1,
        payout := 1, details := .digitOdd }

/-- Lines 267-272 of `run_backtest`: the per-step stake and martingale level.
When martingale is enabled and the loss streak has reached
`martingale_start`, the level is `min(losses - start + 1, max_martingale)`
and the stake is `stake_amount * 2 ** level`; otherwise the stake is the base
stake and the level variable keeps its previous value. -/
def btStakeLevel (cfg : BTConfig) (consecutiveLosses currentLevel : Int) : ℚ × Int :=
  if cfg.martingaleEnabled = true ∧ cfg.martingaleStart ≤ consecutiveLosses then
    let lvl := min (consecutiveLosses - cfg.martingaleStart + 1) cfg.maxMartingale
    (cfg.stakeAmount * (2 : ℚ) ^ lvl, lvl)
  else
    (cfg.stakeAmount, currentLevel)

/-- Lines 276-332 of `run_backtest`: realize a trade whose confidence passed
the threshold — profit, streak counters, balance, peak/drawdown tracking,
trade record and equity-curve point. -/
def btExecuteTrade (s : BTState) (i : Nat) (window : List Nat)
    (prediction nextDigit : Nat) (d : StepDecision) (currentStake : ℚ) (lvl : Int) : BTState :=
  let profit : ℚ := if d.isWin then currentStake * d.payout else -currentStake
  let consecutiveWins : Int := if d.isWin then s.consecutiveWins + 1 else 0
  let consecutiveLosses : Int := if d.isWin then 0 else s.consecutiveLosses + 1
  let newLevel : Int := if d.isWin then 0 else lvl
  let balance := s.balance + profit
  let isNewPeak : Bool := decide (s.peakBalance < balance)
  let currentDrawdown : ℚ := if isNewPeak then 0 else s.peakBalance - balance
  let trade : TradeRecord :=
    { index := i, window := window.drop (window.length - 10), prediction := prediction,
      actual := nextDigit, isWin := d.isWin, stake := currentStake, profit := profit,
      balance := balance, confidence := d.confidence, martingaleLevel := newLevel,
      details := d.details }
  let trades := s.trades ++ [trade]
  { currentStake := currentStake,
    balance := balance,
    consecutiveLosses := consecutiveLosses,
    consecutiveWins := consecutiveWins,
    maxConsecutiveWins :=
      if d.isWin then max s.maxConsecutiveWins consecutiveWins else s.maxConsecutiveWins,
    maxConsecutiveLosses :=
      if d.isWin then s.maxConsecutiveLosses else max s.maxConsecutiveLosses consecutiveLosses,
    currentDrawdown := currentDrawdown,
    maxDrawdown :=
      if isNewPeak then s.maxDrawdown else max s.maxDrawdown currentDrawdown,
    maxDrawdownPercentage :=
      if isNewPeak then s.maxDrawdownPercentage
      else if s.maxDrawdown < currentDrawdown ∧ 0 < s.peakBalance then
        currentDrawdown / s.peakBalance * 100
      else s.maxDrawdownPercentage,
    peakBalance := if isNewPeak then balance else s.peakBalance,
    winningTrades := if d.isWin then s.winningTrades ++ [profit] else s.winningTrades,
    losingTrades := if d.isWin then s.losingTrades else s.losingTrades ++ [|profit|],
    currentMartingaleLevel := newLevel,
    trades := trades,
    equityCurve := s.equityCurve ++ [(trades.length, balance)] }

/-- One iteration of the simulation loop at index `i`: decision window
`series[i - windowSize : i]`, realized outcome `series[i]`, stake/level
recomputation, and either an executed trade or a skip (which still stores the
recomputed stake and level variables). -/
def btStep (rnd : Nat) (cfg : BTConfig) (series : List Nat) (s : BTState) (i : Nat) : BTState :=
  let window := (series.drop (i - cfg.windowSize)).take cfg.windowSize
  let nextDigit := series.getD i 0
  let d := stepDecision cfg.contractType window nextDigit
  let currentStake := (btStakeLevel cfg s.consecutiveLosses s.currentMartingaleLevel).1
  let lvl := (btStakeLevel cfg s.consecutiveLosses s.currentMartingaleLevel).2
  if cfg.minConfidence ≤ d.confidence then
    btExecuteTrade s i window (predictNextDigit rnd window) nextDigit d currentStake lvl
  else
    { s with currentStake := currentStake, currentMartingaleLevel := lvl }

/-- The loop indices `range(window_size, len(series) - 1)`. -/
def loopIndices (cfg : BTConfig) (series : List Nat) : List Nat :=
  List.range' cfg.windowSize (series.length - 1 - cfg.windowSize)

/-- Maximum of a list, Python `max(l)` over a non-empty list, 0 for `[]`
(the source guards the empty case with `if winning_trades else 0`). -/
def listMax (l : List ℚ) : ℚ :=
  match l with
  | [] => 0
  | h :: t => t.foldl max h

/-- `profit_factor`: a finite ratio or the `float('inf')` sentinel. -/
inductive ProfitFactor
  | val (q : ℚ)
  | infinite
deriving DecidableEq

/-- `self.results['summary']` of a finished run. The source reports
`sharpe_ratio = avgReturn / stdev` where `stdev = sqrt(returnVariance)`
(0 when the deviation is 0 or there are no trades); the square root is
irrational in general, so the summary carries the mean and variance of the
per-trade `profit/stake` returns, which determine it. -/
structure BTSummary where
  totalTrades : Nat
  wins : Nat
  losses : Nat
  winRate : ℚ
  profitLoss : ℚ
  maxConsecutiveWins : Int
  maxConsecutiveLosses : Int
  maxDrawdown : ℚ
  maxDrawdownPercentage : ℚ
  profitFactor : ProfitFactor
  avgReturn : ℚ
  returnVariance : ℚ
  averageWin : ℚ
  averageLoss : ℚ
  largestWin : ℚ
  largestLoss : ℚ
deriving DecidableEq

/-- `total_profit` of line 339: the sum of the positive trade profits. -/
def totalProfit (trades : List TradeRecord) : ℚ :=
  ((trades.filter (fun t => 0 < t.profit)).map (fun t => t.profit)).sum

/-- `total_loss` of line 340: the sum of the absolute negative trade
profits. -/
def totalLoss (trades : List TradeRecord) : ℚ :=
  ((trades.filter (fun t => t.profit < 0)).map (fun t => |t.profit|)).sum

/-- Lines 334-383 of `run_backtest`: the summary statistics computed from the
final trade log and state. -/
def computeSummary (s : BTState) : BTSummary :=
  let trades := s.trades
  let totalTrades := trades.length
  let wins := trades.countP (fun t => t.isWin)
  let losses := totalTrades - wins
  let totalProfit := totalProfit trades
  let totalLoss := totalLoss trades
  let winRate : ℚ := if 0 < totalTrades then ((wins : ℚ) / (totalTrades : ℚ)) * 100 else 0
  let profitFactor : ProfitFactor :=
    if totalLoss = 0 then
      if 0 < totalProfit then .infinite else .val 0
    else .val (totalProfit / totalLoss)
  let averageWin : ℚ := if 0 < wins then totalProfit / (wins : ℚ) else 0
  let averageLoss : ℚ := if 0 < losses then totalLoss / (losses : ℚ) else 0
  let returns := trades.map (fun t => t.profit / t.stake)
  let avgReturn : ℚ := if 0 < totalTrades then returns.sum / (returns.length : ℚ) else 0
  let returnVariance : ℚ :=
    if 0 < totalTrades then
      ((returns.map (fun r => (r - avgReturn) ^ 2)).sum) / (returns.length : ℚ)
    else 0
  { totalTrades := totalTrades, wins := wins, losses := losses, winRate := winRate,
    profitLoss := s.balance, maxConsecutiveWins := s.maxConsecutiveWins,
    maxConsecutiveLosses := s.maxConsecutiveLosses, maxDrawdown := s.maxDrawdown,
    maxDrawdownPercentage := s.maxDrawdownPercentage, profitFactor := profitFactor,
    avgReturn := avgReturn, returnVariance := returnVariance, averageWin := averageWin,
    averageLoss := averageLoss, largestWin := listMax s.winningTrades,
    largestLoss := listMax s.losingTrades }

/-- The full result dictionary of a run. -/
structure BTResult where
  trades : List TradeRecord
  summary : BTSummary
  equityCurve : List (Nat × ℚ)
deriving DecidableEq

/-- The simulation loop and summary of `run_backtest`, after the
insufficient-data guard has passed. -/
def runBacktestCore (rnd : Nat) (series : List Nat) (cfg : BTConfig) : BTResult :=
  let finalState := (loopIndices cfg series).foldl (btStep rnd cfg series) (initState cfg)
  { trades := finalState.trades, summary := computeSummary finalState,
    equityCurve := finalState.equityCurve }

/-- `run_backtest` including the guard of line 116: an empty series or fewer
data points than the window size yields the `Not enough historical data`
error, modelled as `none`. -/
def runBacktest (rnd : Nat) (series : List Nat) (cfg : BTConfig) : Option BTResult :=
  if series = [] ∨ series.length < cfg.windowSize then none
  else some (runBacktestCore rnd series cfg)

/-! ## Concrete inputs used by witnesses and counterexamples -/

/-- The repeating block `[1,2,3,4,5,6,7,8,9,0]` of the end-to-end digit
series. -/
def c4Block : List Nat := [1, 2, 3, 4, 5, 6, 7, 8, 9, 0]

/-- The digit series: the block repeated 50 times (500 digits). -/
def c4Series : List Nat := (List.replicate 50 c4Block).flatten

/-- Backtest configuration for the end-to-end scenario: `even_odd`, window
size 20, minimum confidence 0.5, remaining fields at the `config.get`
defaults of `run_backtest`. -/
def c4Config : BTConfig :=
  { contractType := .evenOdd, stakeAmount := 10, martingaleEnabled := false,
    martingaleStart := 1, maxMartingale := 5, minConfidence := 1/2, windowSize := 20 }

/-- A five-digit series whose two executed `even_odd` trades are a loss at
martingale level 0 followed by a loss at level 1. -/
def c2Series : List Nat := [1, 1, 0, 0, 0]

/-- Martingale-enabled backtest configuration with window 2 and threshold 0,
so every step executes. -/
def c2Config : BTConfig :=
  { contractType := .evenOdd, stakeAmount := 10, martingaleEnabled := true,
    martingaleStart := 1, maxMartingale := 5, minConfidence := 0, windowSize := 2 }

/-- A constant series of odd digits: every `even_odd` step wins. -/
def c6Series : List Nat := [1, 1, 1, 1, 1]

/-- Martingale-disabled `even_odd` configuration with window 2 and
threshold 0. -/
def c6Config : BTConfig :=
  { contractType := .evenOdd, stakeAmount := 10, martingaleEnabled := false,
    martingaleStart := 1, maxMartingale := 5, minConfidence := 0, windowSize := 2 }

/-- An `even_odd` configuration whose threshold 0.9 is never reached on a
balanced window, so steps are skipped. -/
def c7Config : BTConfig :=
  { contractType := .evenOdd, stakeAmount := 10, martingaleEnabled := true,
    martingaleStart := 1, maxMartingale := 5, minConfidence := 9/10, windowSize := 2 }

/-- An alternating series whose windows of size 2 split evenly between even
and odd, giving confidence 1/2 at every step. -/
def c7Series : List Nat := [1, 2, 1, 2, 1]

/-- Connection attempts that always report an authorization error whose
message does not mention a token. -/
def c9NonTokenAuth : Nat → AttemptOutcome := fun _ => .authErr false

/-! ## Helper lemmas -/

/-- A property preserved by every step of a fold holds of the fold. -/
theorem foldlInvariant {α β : Type _} (f : β → α → β) (P : β → Prop)
    (hstep : ∀ b a, P b → P (f b a)) :
    ∀ (l : List α) (init : β), P init → P (l.foldl f init) := by
  intro l
  induction l with
  | nil => intro init h; exact h
  | cons a t ih => intro init h; exact ih (f init a) (hstep init a h)

/-! ## Claim theorems -/

/-- C3: for every martingale state with balance information available, the
live stake equals base stake at level 0 and otherwise
`max(baseStake, min(baseStake * m, balance * maxRiskFraction))` for the
win-rate-selected multiplier `m`, with the hard-coded risk fraction 1/20;
with base 10, level 3 and win rate 0.7 the raw stake before the cap is 80. -/
theorem c3_stake_formula (baseStake balance : ℚ) (level : Int) (wins losses : Nat) :
    getStakeAmount baseStake level wins losses true balance
      = specNextStake
          (if 0 < wins + losses then (wins : ℚ) / ((wins + losses : Nat) : ℚ) else 1/2)
          level baseStake balance (1/20)
  ∧ (10 : ℚ) * stakeMultiplier (7/10) 3 = 80 := by
  constructor
  · simp only [getStakeAmount, specNextStake]
    split
    · rfl
    · rw [if_pos trivial, max_comm]
  · have h1 : stakeMultiplier (7/10) 3 = (2 : ℚ) ^ (3 : Int) := by
      simp only [stakeMultiplier]
      norm_num
    rw [h1]
    norm_num

/-- C5: on `[2,4,6,8]` the arithmetic scan reports difference 2, but on
`[8,9,0,1]` it reports nothing at all: the raw first differences `[1, -9]`
must already be constant before the wraparound adjustment is consulted, so
the adjustment the source comments describe for exactly this input is dead
code and the wraparound progression is not detected. -/
theorem c5_wraparound_not_detected :
    ((arithmeticPatterns [2, 4, 6, 8]).map (fun p => p.difference) = [2])
  ∧ arithmeticPatterns [8, 9, 0, 1] = [] := by
  constructor
  · with_unfolding_all rfl
  · with_unfolding_all rfl

/-- C8: the adaptive threshold is 0.6 plus the win-rate adjustment plus the
volatility adjustment, clamped to the interval [0.5, 0.75], and in
particular always lies within [0.5, 0.75]. -/
theorem c8_threshold_spec_and_range (wins losses : Nat) (lastDigits : List Nat) :
    (0 < wins + losses →
       adaptiveMinConfidence wins losses lastDigits
         = specMinConfidence ((wins : ℚ) / ((wins + losses : Nat) : ℚ)) lastDigits)
  ∧ 1/2 ≤ adaptiveMinConfidence wins losses lastDigits
  ∧ adaptiveMinConfidence wins losses lastDigits ≤ 3/4 := by
  refine ⟨?_, ?_, ?_⟩
  · intro h
    simp only [adaptiveMinConfidence, specMinConfidence, if_pos h]
    rcases lt_or_ge lastDigits.length 20 with hlen | hlen
    · rw [if_neg (not_le.mpr hlen), if_pos hlen]
    · rw [if_pos hlen, if_neg (not_lt.mpr hlen)]
  · simp only [adaptiveMinConfidence]
    exact le_max_left _ _
  · simp only [adaptiveMinConfidence]
    exact max_le (by norm_num) (min_le_left _ _)

/-- C8 witness: the specification formula and the bounds at a concrete
state with one win, one loss and 25 digits of history. -/
theorem c8_witness :
    (0 < 1 + 1 ∧
      adaptiveMinConfidence 1 1 (List.replicate 25 4)
        = specMinConfidence ((1 : ℚ) / ((1 + 1 : Nat) : ℚ)) (List.replicate 25 4))
  ∧ 1/2 ≤ adaptiveMinConfidence 1 1 (List.replicate 25 4)
  ∧ adaptiveMinConfidence 1 1 (List.replicate 25 4) ≤ 3/4 :=
  ⟨⟨by norm_num, (c8_threshold_spec_and_range 1 1 (List.replicate 25 4)).1 (by norm_num)⟩,
   (c8_threshold_spec_and_range 1 1 (List.replicate 25 4)).2.1,
   (c8_threshold_spec_and_range 1 1 (List.replicate 25 4)).2.2⟩

/-- Attempts entered never exceed the remaining fuel of the retry loop. -/
theorem connectAux_attempts_le_fuel (outcome : Nat → AttemptOutcome)
    (maxRetries baseDelay : Nat) :
    ∀ (fuel attempt : Nat),
      (connectAux outcome maxRetries baseDelay attempt fuel).attemptsMade ≤ fuel := by
  intro fuel
  induction fuel with
  | zero => intro attempt; simp [connectAux]
  | succ n ih =>
    intro attempt
    simp only [connectAux]
    cases outcome attempt with
    | ok => simp
    | authErr tokenInMessage =>
      cases tokenInMessage with
      | true => simp
      | false => exact Nat.succ_le_succ (ih (attempt + 1))
    | connFail =>
      by_cases hlt : attempt < maxRetries - 1
      · rw [if_pos hlt]; exact Nat.succ_le_succ (ih (attempt + 1))
      · rw [if_neg hlt]; exact Nat.succ_le_succ (ih (attempt + 1))

/-- With fuel remaining, the loop enters at least one attempt. -/
theorem connectAux_attempts_pos (outcome : Nat → AttemptOutcome)
    (maxRetries baseDelay attempt : Nat) :
    ∀ fuel, 0 < fuel →
      1 ≤ (connectAux outcome maxRetries baseDelay attempt fuel).attemptsMade := by
  intro fuel hfuel
  match fuel, hfuel with
  | n + 1, _ =>
    simp only [connectAux]
    cases outcome attempt with
    | ok => simp
    | authErr tokenInMessage => cases tokenInMessage <;> simp
    | connFail =>
      by_cases hlt : attempt < maxRetries - 1
      · rw [if_pos hlt]; exact Nat.le_add_left 1 _
      · rw [if_neg hlt]; exact Nat.le_add_left 1 _

/-- C9 counterexample: when every attempt fails with an authorization error
whose message does not mention a token, the loop runs all three attempts
(with no backoff sleeps), so an authorization error on attempt 1 does not
abort the remaining attempts as the claim states. -/
theorem c9_counterexample :
    connect c9NonTokenAuth = { success := false, attemptsMade := 3, sleeps := [] }
  ∧ (connect c9NonTokenAuth).attemptsMade ≠ 1 := by
  constructor
  · rfl
  · decide

/-- C9 amended: only an authorization error identified as a token problem
(message containing `token`) aborts immediately with no further attempts —
also when it occurs after a failed first attempt; authorization errors not
mentioning a token are retried (at least one further attempt, with no
backoff sleep before it); plain connection failures are retried with
exponentially doubling backoff sleeps 1 and 2; and never more than 3
attempts are made. -/
theorem c9_amended_retry_policy (outcome : Nat → AttemptOutcome) :
    (outcome 0 = .authErr true →
       connect outcome = { success := false, attemptsMade := 1, sleeps := [] })
  ∧ (outcome 0 = .connFail → outcome 1 = .authErr true →
       connect outcome = { success := false, attemptsMade := 2, sleeps := [1] })
  ∧ ((∀ i, outcome i = .connFail) →
       connect outcome = { success := false, attemptsMade := 3, sleeps := [1, 2] })
  ∧ (outcome 0 = .authErr false → 2 ≤ (connect outcome).attemptsMade)
  ∧ (connect outcome).attemptsMade ≤ 3 := by
  refine ⟨?_, ?_, ?_, ?_, ?_⟩
  · intro h0
    simp [connect, connectAux, h0]
  · intro h0 h1
    simp [connect, connectAux, h0, h1]
  · intro hall
    simp [connect, connectAux, hall 0, hall 1, hall 2]
  · intro h0
    simp only [connect, connectAux, h0]
    have h := connectAux_attempts_pos outcome 3 1 (0 + 1) 2 (by norm_num)
    exact Nat.add_le_add_right h 1
  · exact connectAux_attempts_le_fuel outcome 3 1 3 0

/-- C9 amended witness: the amended behaviours at concrete outcome
sequences — immediate abort on a token error, full retries without sleeps
on non-token authorization errors, and backoff sleeps on connection
failures. -/
theorem c9_amended_witness :
    connect (fun _ => .authErr true) = { success := false, attemptsMade := 1, sleeps := [] }
  ∧ connect (fun _ => .connFail) = { success := false, attemptsMade := 3, sleeps := [1, 2] }
  ∧ 2 ≤ (connect c9NonTokenAuth).attemptsMade
  ∧ (connect c9NonTokenAuth).attemptsMade ≤ 3 :=
  ⟨(c9_amended_retry_policy (fun _ => .authErr true)).1 rfl,
   (c9_amended_retry_policy (fun _ => .connFail)).2.2.1 (fun _ => rfl),
   (c9_amended_retry_policy c9NonTokenAuth).2.2.2.1 rfl,
   (c9_amended_retry_policy c9NonTokenAuth).2.2.2.2⟩

/-- A settled live outcome keeps the martingale level within a non-negative
cap. -/
theorem settleOutcome_level_le (cfg : LiveTradeConfig) (hmax : 0 ≤ cfg.maxMartingale)
    (s : MartingaleState) (h : s.currentMartingaleLevel ≤ cfg.maxMartingale) :
    ∀ w : Bool, (settleOutcome cfg s w).currentMartingaleLevel ≤ cfg.maxMartingale := by
  intro w
  cases w with
  | true => simpa [settleOutcome] using hmax
  | false =>
    simp only [settleOutcome, Bool.false_eq_true, if_false]
    split
    · simp
    · simpa using h

/-- The per-step stake recomputation of the backtest keeps the level within
the cap. -/
theorem btStakeLevel_snd_le (cfg : BTConfig) (cl l : Int) (h : l ≤ cfg.maxMartingale) :
    (btStakeLevel cfg cl l).2 ≤ cfg.maxMartingale := by
  unfold btStakeLevel
  split
  · simp
  · simpa using h

/-- One backtest step keeps the running level and every recorded level
within a non-negative `max_martingale`. -/
theorem btStep_level_le (rnd : Nat) (cfg : BTConfig) (series : List Nat)
    (hmax : 0 ≤ cfg.maxMartingale) (s : BTState) (i : Nat)
    (h : s.currentMartingaleLevel ≤ cfg.maxMartingale
         ∧ ∀ t ∈ s.trades, t.martingaleLevel ≤ cfg.maxMartingale) :
    (btStep rnd cfg series s i).currentMartingaleLevel ≤ cfg.maxMartingale
    ∧ ∀ t ∈ (btStep rnd cfg series s i).trades,
        t.martingaleLevel ≤ cfg.maxMartingale := by
  have hlvl := btStakeLevel_snd_le cfg s.consecutiveLosses s.currentMartingaleLevel h.1
  simp only [btStep]
  split
  · simp only [btExecuteTrade]
    constructor
    · split
      · exact hmax
      · exact hlvl
    · intro t ht
      simp only [List.mem_append, List.mem_singleton] at ht
      rcases ht with ht | rfl
      · exact h.2 t ht
      · split
        · exact hmax
        · exact hlvl
  · refine ⟨by simpa using hlvl, by simpa using h.2⟩

/-- C1: starting from level 0 with a non-negative `max_martingale`, the
martingale level maintained by the live settlement update and by the
backtest per-step stake computation never exceeds `max_martingale`, for
every run and every outcome sequence (arbitrarily long loss runs
included), and so does every level recorded in the backtest trade log. -/
theorem c1_martingale_level_bounded (maxMartingale : Int) (hmax : 0 ≤ maxMartingale) :
    (∀ (startThreshold : Int) (outcomes : List Bool),
       (outcomes.foldl (settleOutcome ⟨startThreshold, maxMartingale⟩)
           initMartingaleState).currentMartingaleLevel ≤ maxMartingale)
  ∧ (∀ (rnd : Nat) (series : List Nat) (cfg : BTConfig), cfg.maxMartingale = maxMartingale →
       ((loopIndices cfg series).foldl (btStep rnd cfg series)
           (initState cfg)).currentMartingaleLevel ≤ maxMartingale
       ∧ ∀ t ∈ (runBacktestCore rnd series cfg).trades,
           t.martingaleLevel ≤ maxMartingale) := by
  constructor
  · intro startThreshold outcomes
    exact foldlInvariant _ (fun s => s.currentMartingaleLevel ≤ maxMartingale)
      (fun s w hs => settleOutcome_level_le ⟨startThreshold, maxMartingale⟩ hmax s hs w)
      outcomes initMartingaleState hmax
  · intro rnd series cfg hcfg
    subst hcfg
    have key := foldlInvariant (btStep rnd cfg series)
      (fun s => s.currentMartingaleLevel ≤ cfg.maxMartingale
        ∧ ∀ t ∈ s.trades, t.martingaleLevel ≤ cfg.maxMartingale)
      (fun s i hs => btStep_level_le rnd cfg series hmax s i hs)
      (loopIndices cfg series) (initState cfg) ⟨hmax, by simp [initState]⟩
    exact ⟨key.1, key.2⟩

/-- C1 witness: ten straight losses with `max_martingale = 3` keep the live
level at most 3, and every recorded level of the martingale-enabled demo
run stays at most 5. -/
theorem c1_witness :
    ((List.replicate 10 false).foldl (settleOutcome ⟨1, 3⟩)
        initMartingaleState).currentMartingaleLevel ≤ 3
  ∧ ∀ t ∈ (runBacktestCore 0 c2Series c2Config).trades, t.martingaleLevel ≤ 5 := by
  constructor
  · exact (c1_martingale_level_bounded 3 (by norm_num)).1 1 (List.replicate 10 false)
  · exact ((c1_martingale_level_bounded 5 (by norm_num)).2 0 c2Series c2Config rfl).2

/-- C2 counterexample: in the demo run the second executed trade is taken at
martingale level 1 with 0 wins and 1 loss, and the simulator stakes
`10 * 2^1 = 20`; the live stake algorithm on the same martingale state
(level 1, win rate 0, balance 10000 available) returns
`max(10, min(10 * 1.8, 500)) = 18`, so the two per-step stake computations
are not the same algorithm. -/
theorem c2_counterexample :
    ((runBacktestCore 0 c2Series c2Config).trades.map
        (fun t => (t.stake, t.martingaleLevel, t.isWin))) = [(10, 0, false), (20, 1, false)]
  ∧ getStakeAmount 10 1 0 1 true 10000 = 18
  ∧ (20 : ℚ) ≠ 18 := by
  refine ⟨by with_unfolding_all rfl, by with_unfolding_all rfl, by norm_num⟩

/-- C2 amended: the stake the backtest uses at each step is the pure
standard martingale `stake_amount * 2^level` for the level the step
computes, which is exactly what the live `get_stake_amount` returns in its
fallback branch when account balance information is unavailable (for any
win/loss counts and balance); the balance-aware live path with its win-rate
multipliers, risk cap and base floor is not matched. The side condition —
the stored level is 0 whenever the stake recomputation takes its
base-stake branch — holds in every state the simulation reaches (second
conjunct, over an arbitrary list of step indices). -/
theorem c2_amended_standard_martingale :
    (∀ (cfg : BTConfig) (cl l : Int) (wins losses : Nat) (accountBalance : ℚ),
       (¬(cfg.martingaleEnabled = true ∧ cfg.martingaleStart ≤ cl) → l = 0) →
       (btStakeLevel cfg cl l).1
         = getStakeAmount cfg.stakeAmount ((btStakeLevel cfg cl l).2)
             wins losses false accountBalance)
  ∧ (∀ (rnd : Nat) (series : List Nat) (cfg : BTConfig) (idxs : List Nat),
       ¬(cfg.martingaleEnabled = true ∧ cfg.martingaleStart ≤
           (idxs.foldl (btStep rnd cfg series) (initState cfg)).consecutiveLosses) →
       (idxs.foldl (btStep rnd cfg series) (initState cfg)).currentMartingaleLevel = 0) := by
  constructor
  · intro cfg cl l wins losses accountBalance hl
    by_cases hcond : cfg.martingaleEnabled = true ∧ cfg.martingaleStart ≤ cl
    · rw [btStakeLevel, if_pos hcond]
      dsimp only
      by_cases hl0 : min (cl - cfg.martingaleStart + 1) cfg.maxMartingale = 0
      · rw [hl0, getStakeAmount, if_pos rfl, zpow_zero, mul_one]
      · rw [getStakeAmount, if_neg hl0]
        simp
    · rw [btStakeLevel, if_neg hcond]
      dsimp only
      rw [hl hcond, getStakeAmount, if_pos rfl]
  · intro rnd series cfg idxs
    exact foldlInvariant (btStep rnd cfg series)
      (fun s => ¬(cfg.martingaleEnabled = true ∧ cfg.martingaleStart ≤ s.consecutiveLosses) →
        s.currentMartingaleLevel = 0)
      (fun s i hs => by
        simp only [btStep]
        split
        · simp only [btExecuteTrade]
          intro hcond
          split at hcond
          · simp_all
          · have hnot : ¬(cfg.martingaleEnabled = true ∧
                cfg.martingaleStart ≤ s.consecutiveLosses) := by
              intro hc
              exact hcond ⟨hc.1, by omega⟩
            rename_i hwin
            rw [if_neg hwin, btStakeLevel, if_neg hnot]
            exact hs hnot
        · dsimp only
          intro hcond
          rw [btStakeLevel, if_neg hcond]
          exact hs hcond)
      idxs (initState cfg) (fun _ => rfl)

/-- C2 amended witness: at the concrete state of the counterexample (loss
streak 1, stored level 0) the step stake 20 equals the live fallback stake
at the computed level 1, and the empty run satisfies the side condition. -/
theorem c2_amended_witness :
    (btStakeLevel c2Config 1 0).1
      = getStakeAmount c2Config.stakeAmount ((btStakeLevel c2Config 1 0).2) 0 1 false 10000
  ∧ (¬(c2Config.martingaleEnabled = true ∧ c2Config.martingaleStart ≤
        (([] : List Nat).foldl (btStep 0 c2Config c2Series)
            (initState c2Config)).consecutiveLosses) →
      (([] : List Nat).foldl (btStep 0 c2Config c2Series)
          (initState c2Config)).currentMartingaleLevel = 0) :=
  ⟨c2_amended_standard_martingale.1 c2Config 1 0 0 1 10000 (fun _ => rfl),
   c2_amended_standard_martingale.2 0 c2Series c2Config []⟩

/-- Recomputing the stake and level from an unchanged loss streak is
idempotent: feeding the recomputed level back in changes nothing. -/
theorem btStakeLevel_idem (cfg : BTConfig) (cl l : Int) :
    btStakeLevel cfg cl ((btStakeLevel cfg cl l).2) = btStakeLevel cfg cl l := by
  by_cases h : cfg.martingaleEnabled = true ∧ cfg.martingaleStart ≤ cl
  · simp only [btStakeLevel, if_pos h]
  · simp only [btStakeLevel, if_neg h]

/-- C7: a backtest step whose confidence is below `min_confidence` is
skipped: it adds no trade-log entry and no equity-curve point and leaves the
balance and both streak counters unchanged; consequently the stake and the
martingale level that the stake recomputation derives from the resulting
state — those used by the next executed step — are also unchanged, so
skipped steps do not count toward martingale escalation. -/
theorem c7_skipped_step_frame (rnd : Nat) (cfg : BTConfig) (series : List Nat)
    (s : BTState) (i : Nat)
    (hskip : (stepDecision cfg.contractType
        ((series.drop (i - cfg.windowSize)).take cfg.windowSize)
        (series.getD i 0)).confidence < cfg.minConfidence) :
    (btStep rnd cfg series s i).trades = s.trades
  ∧ (btStep rnd cfg series s i).equityCurve = s.equityCurve
  ∧ (btStep rnd cfg series s i).balance = s.balance
  ∧ (btStep rnd cfg series s i).consecutiveWins = s.consecutiveWins
  ∧ (btStep rnd cfg series s i).consecutiveLosses = s.consecutiveLosses
  ∧ (btStakeLevel cfg (btStep rnd cfg series s i).consecutiveLosses
        (btStep rnd cfg series s i).currentMartingaleLevel).1
      = (btStakeLevel cfg s.consecutiveLosses s.currentMartingaleLevel).1
  ∧ (btStakeLevel cfg (btStep rnd cfg series s i).consecutiveLosses
        (btStep rnd cfg series s i).currentMartingaleLevel).2
      = (btStakeLevel cfg s.consecutiveLosses s.currentMartingaleLevel).2 := by
  have hns : ¬ cfg.minConfidence ≤ (stepDecision cfg.contractType
      ((series.drop (i - cfg.windowSize)).take cfg.windowSize)
      (series.getD i 0)).confidence := not_le.mpr hskip
  simp only [btStep, if_neg hns]
  refine ⟨trivial, trivial, trivial, trivial, trivial, ?_, ?_⟩
  · exact congrArg Prod.fst (btStakeLevel_idem cfg s.consecutiveLosses s.currentMartingaleLevel)
  · exact congrArg Prod.snd (btStakeLevel_idem cfg s.consecutiveLosses s.currentMartingaleLevel)

/-- C7 witness: the skip at step 2 of the alternating demo run (confidence
1/2 below the 0.9 threshold) leaves trade log, equity curve, balance and
streak counters of the initial state unchanged. -/
theorem c7_witness :
    (btStep 0 c7Config c7Series (initState c7Config) 2).trades
        = (initState c7Config).trades
  ∧ (btStep 0 c7Config c7Series (initState c7Config) 2).equityCurve
        = (initState c7Config).equityCurve
  ∧ (btStep 0 c7Config c7Series (initState c7Config) 2).balance
        = (initState c7Config).balance
  ∧ (btStep 0 c7Config c7Series (initState c7Config) 2).consecutiveLosses
        = (initState c7Config).consecutiveLosses := by
  have h := c7_skipped_step_frame 0 c7Config c7Series (initState c7Config) 2
    (of_decide_eq_true (by with_unfolding_all rfl))
  exact ⟨h.1, h.2.1, h.2.2.1, h.2.2.2.2.1⟩

/-- A fold of the most-common accumulator starting from `some` stays
`some`. -/
theorem foldl_option_some {α : Type _} (f : Option α → α → Option α)
    (hf : ∀ b a, ∃ c, f (some b) a = some c) :
    ∀ (l : List α) (b : α), ∃ c, l.foldl f (some b) = some c := by
  intro l
  induction l with
  | nil => intro b; exact ⟨b, rfl⟩
  | cons a t ih =>
    intro b
    obtain ⟨c, hc⟩ := hf b a
    rw [List.foldl_cons, hc]
    exact ih c

/-- A non-empty history always has a most common digit. -/
theorem mostCommon_some (l : List Nat) (h : l ≠ []) : ∃ d, mostCommon l = some d := by
  match l, h with
  | a :: t, _ =>
    unfold mostCommon firstOccurrences
    rw [firstOccurrencesAux]
    simp only [List.not_mem_nil, if_false]
    rw [List.foldl_cons]
    exact foldl_option_some _
      (fun b c => by dsimp only; split <;> exact ⟨_, rfl⟩) _ a

/-- The random fallback of the prediction model is unreachable: the
prediction is the same for every value of the modelled random draw. -/
theorem predictNextDigit_rnd_irrelevant (rnd rnd2 : Nat) (history : List Nat) :
    predictNextDigit rnd history = predictNextDigit rnd2 history := by
  unfold predictNextDigit
  by_cases h : history = []
  · simp [h]
  · obtain ⟨d, hd⟩ := mostCommon_some history h
    rw [if_neg h, if_neg h, hd]

/-- C10: with a window size of at least 1 and enough data, two runs of the
backtest on the same series and configuration produce identical results —
trade log, summary and equity curve — whatever the modelled random draws
are: no randomness is reachable in the decision path. -/
theorem c10_backtest_deterministic (rnd rnd2 : Nat) (series : List Nat) (cfg : BTConfig)
    (_hw : 1 ≤ cfg.windowSize) (_hlen : cfg.windowSize ≤ series.length) :
    runBacktest rnd series cfg = runBacktest rnd2 series cfg := by
  have hstep : ∀ s i, btStep rnd cfg series s i = btStep rnd2 cfg series s i := by
    intro s i
    simp only [btStep]
    rw [predictNextDigit_rnd_irrelevant rnd rnd2]
  have hfold : ∀ (l : List Nat) (s : BTState),
      l.foldl (btStep rnd cfg series) s = l.foldl (btStep rnd2 cfg series) s := by
    intro l
    induction l with
    | nil => intro s; rfl
    | cons a t ih => intro s; rw [List.foldl_cons, List.foldl_cons, hstep, ih]
  unfold runBacktest runBacktestCore
  rw [hfold]

/-- C10 witness: two runs of the demo backtest with different random draws
agree, with window size 2 and five data points. -/
theorem c10_witness :
    1 ≤ c6Config.windowSize ∧ c6Config.windowSize ≤ c6Series.length
  ∧ runBacktest 3 c6Series c6Config = runBacktest 7 c6Series c6Config :=
  ⟨by decide, by decide,
   c10_backtest_deterministic 3 7 c6Series c6Config (by decide) (by decide)⟩

/-- Every payout constant of the step decision is positive. -/
theorem stepDecision_payout_pos (ct : ContractType) (window : List Nat) (nextDigit : Nat) :
    0 < (stepDecision ct window nextDigit).payout := by
  unfold stepDecision
  cases ct
  · norm_num
  · norm_num
  · dsimp only
    split <;> norm_num
  · dsimp only
    split <;> norm_num

/-- With a positive base stake every per-step stake is positive. -/
theorem btStakeLevel_fst_pos (cfg : BTConfig) (hbase : 0 < cfg.stakeAmount) (cl l : Int) :
    0 < (btStakeLevel cfg cl l).1 := by
  unfold btStakeLevel
  split
  · dsimp only
    exact mul_pos hbase (zpow_pos (by norm_num) _)
  · exact hbase

/-- With a positive base stake, each backtest step preserves the sign
discipline of the trade log: winning trades record positive profit, losing
trades negative profit. -/
theorem btStep_profit_sign (rnd : Nat) (cfg : BTConfig) (series : List Nat)
    (hbase : 0 < cfg.stakeAmount) (s : BTState) (i : Nat)
    (h : ∀ t ∈ s.trades, (t.isWin = true → 0 < t.profit) ∧ (t.isWin = false → t.profit < 0)) :
    ∀ t ∈ (btStep rnd cfg series s i).trades,
      (t.isWin = true → 0 < t.profit) ∧ (t.isWin = false → t.profit < 0) := by
  have hstake := btStakeLevel_fst_pos cfg hbase s.consecutiveLosses s.currentMartingaleLevel
  have hpay := stepDecision_payout_pos cfg.contractType
    ((series.drop (i - cfg.windowSize)).take cfg.windowSize) (series.getD i 0)
  simp only [btStep]
  split
  · simp only [btExecuteTrade]
    intro t ht
    simp only [List.mem_append, List.mem_singleton] at ht
    rcases ht with ht | rfl
    · exact h t ht
    · constructor
      · intro hwin
        dsimp only at hwin ⊢
        rw [if_pos hwin]
        exact mul_pos hstake hpay
      · intro hloss
        dsimp only at hloss ⊢
        rw [if_neg (by simp only [hloss]; exact Bool.false_ne_true)]
        exact neg_lt_zero.mpr hstake
  · intro t ht
    exact h t ht

/-- The profit-factor special cases follow from the sign discipline of the
trade log. -/
theorem computeSummary_profit_factor (s : BTState)
    (h : ∀ t ∈ s.trades, (t.isWin = true → 0 < t.profit) ∧ (t.isWin = false → t.profit < 0)) :
    (1 ≤ (computeSummary s).wins ∧ (computeSummary s).losses = 0 →
        (computeSummary s).profitFactor = .infinite)
  ∧ ((computeSummary s).wins = 0 ∧ (computeSummary s).losses = 0 →
        (computeSummary s).profitFactor = .val 0)
  ∧ (totalLoss s.trades ≠ 0 →
        (computeSummary s).profitFactor
          = .val (totalProfit s.trades / totalLoss s.trades)) := by
  refine ⟨?_, ?_, ?_⟩
  · rintro ⟨hw, hl⟩
    simp only [computeSummary] at hw hl ⊢
    have hcle := List.countP_le_length (p := fun t => t.isWin) (l := s.trades)
    have hcount : s.trades.countP (fun t => t.isWin) = s.trades.length := by omega
    have hall : ∀ t ∈ s.trades, t.isWin = true := List.countP_eq_length.mp hcount
    have hpos : ∀ t ∈ s.trades, 0 < t.profit := fun t ht => (h t ht).1 (hall t ht)
    have hnil : s.trades ≠ [] := by
      intro hn
      rw [hn] at hcount hw
      simp at hw
    have hfilterPos : s.trades.filter (fun t => decide (0 < t.profit)) = s.trades :=
      List.filter_eq_self.mpr (fun t ht => by simpa using hpos t ht)
    have hfilterNeg : s.trades.filter (fun t => decide (t.profit < 0)) = [] :=
      List.filter_eq_nil_iff.mpr (fun t ht => by simpa using le_of_lt (hpos t ht))
    have hloss0 : totalLoss s.trades = 0 := by
      rw [totalLoss, hfilterNeg]
      simp
    have hprofitPos : 0 < totalProfit s.trades := by
      rw [totalProfit, hfilterPos]
      refine List.sum_pos _ (fun x hx => ?_) (by simpa using hnil)
      obtain ⟨t, ht, rfl⟩ := List.mem_map.mp hx
      exact hpos t ht
    rw [if_pos hloss0, if_pos hprofitPos]
  · rintro ⟨hw, hl⟩
    simp only [computeSummary] at hw hl ⊢
    have hlen : s.trades.length = 0 := by omega
    have hnil : s.trades = [] := List.length_eq_zero.mp hlen
    have hloss0 : totalLoss s.trades = 0 := by rw [hnil, totalLoss]; simp
    have hprofit0 : totalProfit s.trades = 0 := by rw [hnil, totalProfit]; simp
    rw [if_pos hloss0, if_neg (by rw [hprofit0]; exact lt_irrefl 0)]
  · intro hne
    simp only [computeSummary]
    rw [if_neg hne]

/-- C6: in every completed backtest with a positive base stake, the profit
factor is the infinite sentinel when there is at least one win and no loss,
the finite value 0 when there are neither wins nor losses, and otherwise (a
non-zero loss sum) the ratio of the positive-profit sum to the
absolute-negative-profit sum. -/
theorem c6_profit_factor (rnd : Nat) (series : List Nat) (cfg : BTConfig)
    (hbase : 0 < cfg.stakeAmount) :
    (1 ≤ (runBacktestCore rnd series cfg).summary.wins
        ∧ (runBacktestCore rnd series cfg).summary.losses = 0 →
      (runBacktestCore rnd series cfg).summary.profitFactor = .infinite)
  ∧ ((runBacktestCore rnd series cfg).summary.wins = 0
        ∧ (runBacktestCore rnd series cfg).summary.losses = 0 →
      (runBacktestCore rnd series cfg).summary.profitFactor = .val 0)
  ∧ (totalLoss (runBacktestCore rnd series cfg).trades ≠ 0 →
      (runBacktestCore rnd series cfg).summary.profitFactor
        = .val (totalProfit (runBacktestCore rnd series cfg).trades
            / totalLoss (runBacktestCore rnd series cfg).trades)) := by
  have hsign := foldlInvariant (btStep rnd cfg series)
    (fun s => ∀ t ∈ s.trades, (t.isWin = true → 0 < t.profit) ∧ (t.isWin = false → t.profit < 0))
    (fun s i hs => btStep_profit_sign rnd cfg series hbase s i hs)
    (loopIndices cfg series) (initState cfg) (by simp [initState])
  exact computeSummary_profit_factor _ hsign

/-- C6 witness: the all-win demo run (positive base stake 10, two wins, no
losses) has the infinite profit factor. -/
theorem c6_witness :
    0 < c6Config.stakeAmount
  ∧ (runBacktestCore 0 c6Series c6Config).summary.profitFactor = .infinite :=
  ⟨of_decide_eq_true (by with_unfolding_all rfl),
   (c6_profit_factor 0 c6Series c6Config (of_decide_eq_true (by with_unfolding_all rfl))).1
     ⟨of_decide_eq_true (by with_unfolding_all rfl),
      of_decide_eq_true (by with_unfolding_all rfl)⟩⟩

/-- Dropping whole blocks from the flattened periodic series peels them off
one at a time. -/
theorem c4_drop_blocks : ∀ (q m : Nat), q ≤ m →
    (List.flatten (List.replicate m c4Block)).drop (10 * q)
      = List.flatten (List.replicate (m - q) c4Block) := by
  intro q
  induction q with
  | zero => intro m _; simp
  | succ k ih =>
    intro m hm
    match m, hm with
    | n + 1, _ =>
      rw [List.replicate_succ, List.flatten_cons,
        show 10 * (k + 1) = 10 + 10 * k by ring, ← List.drop_drop,
        List.drop_left' (show c4Block.length = 10 by rfl), ih n (by omega),
        Nat.succ_sub_succ]

/-- A 20-digit window of the periodic series starting inside the first of at
least three remaining blocks is determined by three blocks. -/
theorem c4_window_eq (r : Nat) (hr : r < 10) (m : Nat) (hm : 3 ≤ m) :
    ((List.flatten (List.replicate m c4Block)).drop r).take 20
      = ((c4Block ++ c4Block ++ c4Block).drop r).take 20 := by
  obtain ⟨k, rfl⟩ : ∃ k, m = 3 + k := ⟨m - 3, by omega⟩
  rw [List.replicate_add, List.flatten_append,
    List.drop_append_of_le_length (by simp [c4Block]; omega),
    List.take_append_of_le_length (by simp [c4Block]; omega)]
  rfl

/-- Every rotation of the tripled block gives a window whose even and odd
shares are both exactly 1/2, so the even-odd confidence is 1/2 whatever the
realized digit is. -/
theorem c4_confidence_of_window (r : Nat) (hr : r < 10) (n : Nat) :
    (stepDecision .evenOdd (((c4Block ++ c4Block ++ c4Block).drop r).take 20) n).confidence
      = 1/2 := by
  have h10 : r = 0 ∨ r = 1 ∨ r = 2 ∨ r = 3 ∨ r = 4
      ∨ r = 5 ∨ r = 6 ∨ r = 7 ∨ r = 8 ∨ r = 9 := by omega
  rcases h10 with rfl | rfl | rfl | rfl | rfl | rfl | rfl | rfl | rfl | rfl <;>
    with_unfolding_all rfl

/-- The series has 500 digits. -/
theorem c4Series_length : c4Series.length = 500 := by decide

/-- At every loop index of the end-to-end scenario the step confidence is
exactly 1/2. -/
theorem c4_step_confidence (i : Nat) (hi : 20 ≤ i) (hi2 : i ≤ 498) :
    (stepDecision c4Config.contractType
        ((c4Series.drop (i - c4Config.windowSize)).take c4Config.windowSize)
        (c4Series.getD i 0)).confidence = 1/2 := by
  have hwin : (c4Series.drop (i - c4Config.windowSize)).take c4Config.windowSize
      = ((c4Block ++ c4Block ++ c4Block).drop ((i - 20) % 10)).take 20 := by
    show (c4Series.drop (i - 20)).take 20 = _
    have h1 : c4Series.drop (i - 20)
        = (List.flatten (List.replicate (50 - (i - 20) / 10) c4Block)).drop ((i - 20) % 10) := by
      conv_lhs =>
        rw [show i - 20 = 10 * ((i - 20) / 10) + (i - 20) % 10 from (Nat.div_add_mod _ 10).symm]
      rw [← List.drop_drop]
      show ((List.flatten (List.replicate 50 c4Block)).drop (10 * ((i - 20) / 10))).drop
          ((i - 20) % 10) = _
      rw [c4_drop_blocks ((i - 20) / 10) 50 (by omega)]
    rw [h1, c4_window_eq ((i - 20) % 10) (Nat.mod_lt _ (by norm_num)) _ (by omega)]
  show (stepDecision .evenOdd
      ((c4Series.drop (i - c4Config.windowSize)).take c4Config.windowSize)
      (c4Series.getD i 0)).confidence = 1/2
  rw [hwin]
  exact c4_confidence_of_window _ (Nat.mod_lt _ (by norm_num)) _

/-- Every step of the end-to-end scenario executes: it appends exactly one
trade, whose confidence is 1/2 and whose recorded outcome is the series
digit at its recorded index. -/
theorem c4_step_trades (i : Nat) (hi : 20 ≤ i) (hi2 : i ≤ 498) (s : BTState) :
    (btStep 0 c4Config c4Series s i).trades.length = s.trades.length + 1
  ∧ ∀ t ∈ (btStep 0 c4Config c4Series s i).trades,
      t ∈ s.trades ∨ (t.confidence = 1/2 ∧ t.actual = c4Series.getD t.index 0) := by
  have hconf := c4_step_confidence i hi hi2
  have hcond : c4Config.minConfidence ≤ (stepDecision c4Config.contractType
      ((c4Series.drop (i - c4Config.windowSize)).take c4Config.windowSize)
      (c4Series.getD i 0)).confidence := by
    rw [hconf]
    exact le_refl _
  simp only [btStep, if_pos hcond, btExecuteTrade]
  constructor
  · simp
  · intro t ht
    simp only [List.mem_append, List.mem_singleton] at ht
    rcases ht with ht | rfl
    · exact Or.inl ht
    · exact Or.inr ⟨hconf, rfl⟩

/-- Folding the end-to-end step over in-range indices adds one trade per
index, and every added trade has confidence 1/2 and a faithfully recorded
outcome. -/
theorem c4_fold : ∀ (l : List Nat), (∀ i ∈ l, 20 ≤ i ∧ i ≤ 498) → ∀ s : BTState,
    (l.foldl (btStep 0 c4Config c4Series) s).trades.length = s.trades.length + l.length
  ∧ ∀ t ∈ (l.foldl (btStep 0 c4Config c4Series) s).trades,
      t ∈ s.trades ∨ (t.confidence = 1/2 ∧ t.actual = c4Series.getD t.index 0) := by
  intro l
  induction l with
  | nil => intro _ s; exact ⟨rfl, fun t ht => Or.inl ht⟩
  | cons a rest ih =>
    intro hl s
    have ha := hl a (List.mem_cons_self a rest)
    have hstep := c4_step_trades a ha.1 ha.2 s
    have irest := ih (fun i hi => hl i (List.mem_cons_of_mem a hi))
      (btStep 0 c4Config c4Series s a)
    rw [List.foldl_cons]
    refine ⟨by rw [irest.1, hstep.1, List.length_cons]; omega, ?_⟩
    intro t ht
    rcases irest.2 t ht with hmem | hq
    · rcases hstep.2 t hmem with hmem2 | hq2
      · exact Or.inl hmem2
      · exact Or.inr hq2
    · exact Or.inr hq

/-- The loop indices of the end-to-end scenario are 20 through 498. -/
theorem c4_loop_indices : loopIndices c4Config c4Series = List.range' 20 479 := by
  unfold loopIndices
  rw [c4Series_length]
  rfl

/-- C4: on the digit series `[1,2,3,4,5,6,7,8,9,0]` repeated 50 times with
window size 20, contract `even_odd` and threshold 0.5, the summary reports
479 total trades and the log has 479 entries — one for every loop step
after the warm-up, so every step executed and 479 = len(series) -
windowSize - 1; every logged confidence is exactly 1/2; every logged
outcome equals `series[i]` for its recorded step index `i` (walk-forward,
no lookahead); and the data-sufficiency guard passes. -/
theorem c4_alternating_even_odd_run :
    (runBacktestCore 0 c4Series c4Config).summary.totalTrades = 479
  ∧ (runBacktestCore 0 c4Series c4Config).trades.length = 479
  ∧ c4Series.length - c4Config.windowSize - 1 = 479
  ∧ ((runBacktestCore 0 c4Series c4Config).trades.all
      (fun t => decide (t.confidence = 1/2)
        && decide (t.actual = c4Series.getD t.index 0)) = true)
  ∧ (runBacktest 0 c4Series c4Config).isSome = true := by
  have hrange : ∀ i ∈ loopIndices c4Config c4Series, 20 ≤ i ∧ i ≤ 498 := by
    intro i hi
    rw [c4_loop_indices] at hi
    have := List.mem_range'_1.mp hi
    omega
  have hfold := c4_fold (loopIndices c4Config c4Series) hrange (initState c4Config)
  have hlistlen : (loopIndices c4Config c4Series).length = 479 := by
    rw [c4_loop_indices, List.length_range']
  have htrades : (runBacktestCore 0 c4Series c4Config).trades.length = 479 := by
    show ((loopIndices c4Config c4Series).foldl (btStep 0 c4Config c4Series)
      (initState c4Config)).trades.length = 479
    rw [hfold.1, hlistlen]
    rfl
  have hq : ∀ t ∈ (runBacktestCore 0 c4Series c4Config).trades,
      t.confidence = 1/2 ∧ t.actual = c4Series.getD t.index 0 := by
    intro t ht
    rcases hfold.2 t ht with hmem | hgood
    · simp [initState] at hmem
    · exact hgood
  refine ⟨htrades, htrades, by rw [c4Series_length]; rfl, ?_, ?_⟩
  · refine List.all_eq_true.mpr (fun t ht => ?_)
    have := hq t ht
    simp only [Bool.and_eq_true, decide_eq_true_eq]
    exact this
  · have hne : c4Series ≠ [] := by
      intro h
      have := c4Series_length
      rw [h] at this
      simp at this
    unfold runBacktest
    rw [if_neg]
    · rfl
    · push_neg
      refine ⟨hne, ?_⟩
      rw [c4Series_length]
      decide

end YellowMaxPool
